import Mathlib

/-!
Shallow embedding of the gastos-api transaction/balance engine.

The source of truth is the Express + Prisma code under `src/api/routes/`:
`expenses.ts` (transaction create/update/delete), `accounts.ts` (transfer,
balance reconstruction, period balances) and `auth.ts` (login).  The Prisma
store is modelled as lists of rows; `prisma.$transaction([...])` becomes a
single pure state transformation (one atomic unit); route-level 4xx early
returns become `Except` errors raised before any state change, mirroring the
source order of checks and writes.  JS numbers are modelled as `Int`
(amounts are currency-agnostic numerics); dates as `Int` timestamps;
Prisma's string ids as `Nat` drawn from one global counter (uuids are
globally unique).
-/

namespace Gastos

/-- A row of the Prisma `expense` table (a transaction). -/
structure Expense where
  id : Nat
  description : String
  amount : Int
  type : String
  transactionDate : Int
  userId : Nat
  categoryId : Nat
  accountId : Nat
deriving Repr, DecidableEq

/-- A row of the Prisma `account` table. -/
structure Account where
  id : Nat
  userId : Nat
  name : String
  initialBalance : Int
  currentBalance : Int
deriving Repr, DecidableEq

/-- A row of the Prisma `category` table. -/
structure Category where
  id : Nat
  userId : Nat
  name : String
deriving Repr, DecidableEq

/-- A row of the Prisma `user` table.  `password` holds the stored hash. -/
structure User where
  id : Nat
  name : String
  email : String
  password : String
  isVerified : Bool
deriving Repr, DecidableEq

/-- The persistent store. `nextId` models the id generator (uuids). -/
structure Db where
  users : List User
  accounts : List Account
  categories : List Category
  expenses : List Expense
  nextId : Nat
deriving Repr, DecidableEq

def emptyDb : Db :=
  { users := [], accounts := [], categories := [], expenses := [], nextId := 0 }

/-- Route-level business errors, with their HTTP status (§6, §7). -/
inductive ApiErr where
  | invalidAccount
  | invalidCategory
  | sameAccountTransfer
  | nonPositiveAmount
  | invalidTransferAccount
  | notFound
  | accessDenied
deriving Repr, DecidableEq

def ApiErr.status : ApiErr → Nat
  | .invalidAccount => 400
  | .invalidCategory => 400
  | .sameAccountTransfer => 400
  | .nonPositiveAmount => 400
  | .invalidTransferAccount => 400
  | .notFound => 404
  | .accessDenied => 403

/-- The signed-amount mapping of the balance reconstruction reduce in
`accounts.ts` (`GET /accounts/balance`, `GET /accounts/balance/:id`) and of
`getNetChange` in `POST /accounts/balances`: INCOME and TRANSFER_IN count
positively, everything else negatively.  This coincides with the spec's
sign convention (§3). -/
def signedAmount (t : String) (a : Int) : Int :=
  if t == "INCOME" || t == "TRANSFER_IN" then a else -a

/-- `prisma.account.findFirst (where (id, userId))`. -/
def findAccount (db : Db) (accId userId : Nat) : Option Account :=
  db.accounts.find? (fun a => a.id == accId && a.userId == userId)

/-- `prisma.category.findFirst (where (id, userId))`. -/
def findCategory (db : Db) (catId userId : Nat) : Option Category :=
  db.categories.find? (fun c => c.id == catId && c.userId == userId)

/-- `prisma.expense.findUnique (where id)`. -/
def findExpense (db : Db) (expId : Nat) : Option Expense :=
  db.expenses.find? (fun e => e.id == expId)

/-- `prisma.account.update (where id) (increment currentBalance by d)`
applied to one row. -/
def bump1 (accId : Nat) (d : Int) (a : Account) : Account :=
  if a.id == accId then { a with currentBalance := a.currentBalance + d } else a

/-- The same increment over the whole table (row ids are unique, so exactly
the matching row changes). -/
def bumpAccount (accs : List Account) (accId : Nat) (d : Int) : List Account :=
  accs.map (bump1 accId d)

/-- Body of `POST /expenses` in `expenses.ts`. -/
structure CreateReq where
  description : String
  amount : Int
  type : Option String
  date : Int
  categoryId : Nat
  accountId : Nat
deriving Repr, DecidableEq

/-- The cached-balance delta of `POST /expenses`:
`updateAmount = (type === 'INCOME') ? amount : -amount`, a strict
comparison on the raw request string. -/
def createDelta (rawType : Option String) (amount : Int) : Int :=
  if rawType == some "INCOME" then amount else -amount

/-- JS `String.prototype.toUpperCase` on the ASCII strings involved here,
mapped characterwise. -/
def toUpperCase (s : String) : String := ⟨s.data.map Char.toUpper⟩

/-- The stored transaction type of `POST /expenses`:
`(type || 'EXPENSE').toUpperCase()` (the empty string is falsy in JS). -/
def storedType (rawType : Option String) : String :=
  toUpperCase (match rawType with
    | none => "EXPENSE"
    | some t => if t == "" then "EXPENSE" else t)

/-- `POST /expenses` (`expenses.ts`): ownership checks on account and
category, then one atomic unit creating the expense row and incrementing
the account's cached balance by `createDelta`. -/
def createExpense (db : Db) (userId : Nat) (r : CreateReq) : Except ApiErr Db :=
  match findAccount db r.accountId userId with
  | none => .error .invalidAccount
  | some _ =>
    match findCategory db r.categoryId userId with
    | none => .error .invalidCategory
    | some _ =>
      let e : Expense :=
        { id := db.nextId, description := r.description, amount := r.amount
          type := storedType r.type, transactionDate := r.date
          userId := userId, categoryId := r.categoryId, accountId := r.accountId }
      .ok { db with
            expenses := db.expenses ++ [e]
            accounts := bumpAccount db.accounts r.accountId (createDelta r.type r.amount)
            nextId := db.nextId + 1 }

/-- Body of `PUT /expenses/:id`; absent fields keep the old value. -/
structure UpdateReq where
  description : Option String
  amount : Option Int
  date : Option Int
  categoryId : Option Nat
  accountId : Option Nat
deriving Repr, DecidableEq

/-- `revertVal` of `PUT /expenses/:id`:
`oldType === 'EXPENSE' ? oldAmount : -oldAmount`. -/
def updRevert (oldType : String) (oldAmount : Int) : Int :=
  if oldType == "EXPENSE" then oldAmount else -oldAmount

/-- `newVal` of `PUT /expenses/:id`:
`oldType === 'INCOME' ? newAmount : -newAmount` (type never changes). -/
def updReapply (oldType : String) (newAmount : Int) : Int :=
  if oldType == "INCOME" then newAmount else -newAmount

/-- The data written back to the expense row by `PUT /expenses/:id`
(`type` and `userId` are not written). -/
def replaceFields (newDescription : String) (newAmount newDate : Int)
    (newCategoryId newAccountId : Nat) (e : Expense) : Expense :=
  { e with description := newDescription, amount := newAmount
           transactionDate := newDate, categoryId := newCategoryId
           accountId := newAccountId }

/-- `PUT /expenses/:id` (`expenses.ts`): NotFound / AccessDenied checks,
ownership re-validation of a changed account or category, then one atomic
unit applying the balance adjustment (net delta on the same account,
skipping a zero net; revert plus reapply across two accounts otherwise)
and rewriting the expense row. -/
def updateExpense (db : Db) (userId expId : Nat) (r : UpdateReq) : Except ApiErr Db :=
  match findExpense db expId with
  | none => .error .notFound
  | some old =>
    if old.userId != userId then .error .accessDenied else
    let newAmount := r.amount.getD old.amount
    let newAccountId := r.accountId.getD old.accountId
    let newDate := r.date.getD old.transactionDate
    let newCategoryId := r.categoryId.getD old.categoryId
    let newDescription := r.description.getD old.description
    let accOk := match r.accountId with
      | some aid => if aid != old.accountId then (findAccount db aid userId).isSome else true
      | none => true
    if !accOk then .error .invalidAccount else
    let catOk := match r.categoryId with
      | some cid => if cid != old.categoryId then (findCategory db cid userId).isSome else true
      | none => true
    if !catOk then .error .invalidCategory else
    let revertVal := updRevert old.type old.amount
    let newVal := updReapply old.type newAmount
    let accs :=
      if old.accountId == newAccountId then
        let netChange := revertVal + newVal
        if netChange != 0 then bumpAccount db.accounts newAccountId netChange
        else db.accounts
      else
        bumpAccount (bumpAccount db.accounts old.accountId revertVal) newAccountId newVal
    let exps := db.expenses.map (fun e =>
      if e.id == expId then
        replaceFields newDescription newAmount newDate newCategoryId newAccountId e
      else e)
    .ok { db with accounts := accs, expenses := exps }

/-- `revertVal` of `DELETE /expenses/:id`:
`type === 'EXPENSE' ? amount : -amount`. -/
def delRevert (t : String) (amount : Int) : Int :=
  if t == "EXPENSE" then amount else -amount

/-- `DELETE /expenses/:id` (`expenses.ts`): NotFound / AccessDenied checks,
then one atomic unit reverting the balance impact and removing the row
(the receipt cleanup is an external collaborator call and does not touch
the ledger). -/
def deleteExpense (db : Db) (userId expId : Nat) : Except ApiErr Db :=
  match findExpense db expId with
  | none => .error .notFound
  | some e =>
    if e.userId != userId then .error .accessDenied else
    .ok { db with
          accounts := bumpAccount db.accounts e.accountId (delRevert e.type e.amount)
          expenses := db.expenses.filter (fun x => x.id != expId) }

/-- `POST /accounts/transfer` (`accounts.ts`): same-account and
non-positive-amount rejections, ownership validation of both accounts,
lazy find-or-create of the per-user category named `Transferência`, then
one atomic unit creating the TRANSFER_OUT and TRANSFER_IN rows and
decrementing / incrementing the two cached balances. -/
def transfer (db : Db) (userId srcId dstId : Nat) (amount date : Int)
    (description : Option String) : Except ApiErr Db :=
  if srcId == dstId then .error .sameAccountTransfer else
  if amount ≤ 0 then .error .nonPositiveAmount else
  match findAccount db srcId userId, findAccount db dstId userId with
  | some src, some dst =>
    let found := db.categories.find? (fun c => c.name == "Transferência" && c.userId == userId)
    let catId := match found with
      | some c => c.id
      | none => db.nextId
    let cats := match found with
      | some _ => db.categories
      | none => db.categories ++ [{ id := db.nextId, userId := userId, name := "Transferência" }]
    let nid := match found with
      | some _ => db.nextId
      | none => db.nextId + 1
    let outE : Expense :=
      { id := nid, description := description.getD ("Transferência para " ++ dst.name)
        amount := amount, type := "TRANSFER_OUT", transactionDate := date
        userId := userId, categoryId := catId, accountId := srcId }
    let inE : Expense :=
      { id := nid + 1, description := description.getD ("Transferência de " ++ src.name)
        amount := amount, type := "TRANSFER_IN", transactionDate := date
        userId := userId, categoryId := catId, accountId := dstId }
    .ok { db with
          categories := cats
          expenses := db.expenses ++ [outE, inE]
          accounts := bumpAccount (bumpAccount db.accounts srcId (-amount)) dstId amount
          nextId := nid + 2 }
  | _, _ => .error .invalidTransferAccount

/-- `POST /accounts` (`accounts.ts`): creates the account with
`currentBalance = initialBalance = (initialBalance || 0)`. -/
def createAccount (db : Db) (userId : Nat) (name : String)
    (initialBalance : Option Int) : Db :=
  let v := initialBalance.getD 0
  { db with
    accounts := db.accounts ++
      [{ id := db.nextId, userId := userId, name := name
         initialBalance := v, currentBalance := v }]
    nextId := db.nextId + 1 }

/-- `POST /categories`: creates an owner-scoped category. -/
def createCategory (db : Db) (userId : Nat) (name : String) : Db :=
  { db with
    categories := db.categories ++ [{ id := db.nextId, userId := userId, name := name }]
    nextId := db.nextId + 1 }

/-- The reduce of `GET /accounts/balance` (and of `GET /accounts/balance/:id`
with no date range): folds over the account's expenses starting at `0`.
The account's `initialBalance` is not added. -/
def reconstructBalance (db : Db) (accId : Nat) : Int :=
  (db.expenses.filter (fun e => e.accountId == accId)).foldl
    (fun acc e =>
      if e.type == "INCOME" || e.type == "TRANSFER_IN" then acc + e.amount
      else acc - e.amount) 0

/-- `getNetChange` of `POST /accounts/balances`: the Prisma
`groupBy (accountId, type)` plus per-type signed accumulation is linear in
the rows, so it equals the direct signed fold over the account's rows. -/
def getNetChange (es : List Expense) (accId : Nat) : Int :=
  (es.filter (fun e => e.accountId == accId)).foldl
    (fun net e =>
      if e.type == "INCOME" || e.type == "TRANSFER_IN" then net + e.amount
      else net - e.amount) 0

/-- The rows aggregated as "future" by `POST /accounts/balances`: strictly
after the (end-of-day adjusted) end date. -/
def futureTxns (db : Db) (userId : Nat) (accountIds : List Nat) (endAdj : Int) :
    List Expense :=
  db.expenses.filter (fun e =>
    accountIds.contains e.accountId && e.userId == userId
      && decide (endAdj < e.transactionDate))

/-- The rows aggregated as "period" by `POST /accounts/balances`: within
the inclusive range. -/
def periodTxns (db : Db) (userId : Nat) (accountIds : List Nat)
    (startDate endAdj : Int) : List Expense :=
  db.expenses.filter (fun e =>
    accountIds.contains e.accountId && e.userId == userId
      && decide (startDate ≤ e.transactionDate) && decide (e.transactionDate ≤ endAdj))

/-- One element of the `POST /accounts/balances` response. -/
structure BalanceResult where
  accountId : Nat
  accountName : String
  openingBalance : Int
  closingBalance : Int
  periodNet : Int
deriving Repr, DecidableEq

/-- `POST /accounts/balances` (`accounts.ts`): for each owned requested
account, `closing = currentBalance - futureNet` and
`opening = closing - periodNet`.  `endAdj` is the request end date after
the `setHours(23,59,59,999)` adjustment. -/
def accountBalances (db : Db) (userId : Nat) (accountIds : List Nat)
    (startDate endAdj : Int) : List BalanceResult :=
  let future := futureTxns db userId accountIds endAdj
  let period := periodTxns db userId accountIds startDate endAdj
  (db.accounts.filter (fun a => accountIds.contains a.id && a.userId == userId)).map
    (fun a =>
      let futureNet := getNetChange future a.id
      let periodNet := getNetChange period a.id
      let closingBalance := a.currentBalance - futureNet
      let openingBalance := closingBalance - periodNet
      { accountId := a.id, accountName := a.name
        openingBalance := openingBalance, closingBalance := closingBalance
        periodNet := periodNet })

/-- Modelled interface of the external credential collaborator (bcrypt):
hashing is injective and comparison succeeds exactly on the hash of the
original password.  Only the success / failure of the comparison is
observable to the route. -/
def bcryptHash (password : String) : String := "bcrypt." ++ password

def bcryptCompare (password hash : String) : Bool := hash == bcryptHash password

/-- Modelled interface of the external token issuer (jwt.sign). -/
def jwtSign (id : Nat) (email : String) : String :=
  "jwt." ++ toString id ++ "." ++ email

/-- The success body of `POST /auth/login`. -/
structure LoginOk where
  id : Nat
  name : String
  email : String
  token : String
deriving Repr, DecidableEq

/-- The failure modes of `POST /auth/login` with their HTTP status. -/
inductive LoginErr where
  | invalidCredentials
  | emailNotVerified
deriving Repr, DecidableEq

def LoginErr.status : LoginErr → Nat
  | .invalidCredentials => 400
  | .emailNotVerified => 403

/-- `POST /auth/login` (`auth.ts`): 400 on unknown email, 403 on an
unverified email (checked before the password), 400 on a failed password
comparison, otherwise the token response. -/
def login (db : Db) (email password : String) : Except LoginErr LoginOk :=
  match db.users.find? (fun u => u.email == email) with
  | none => .error .invalidCredentials
  | some u =>
    if !u.isVerified then .error .emailNotVerified
    else if !(bcryptCompare password u.password) then .error .invalidCredentials
    else .ok { id := u.id, name := u.name, email := u.email
               token := jwtSign u.id u.email }

/-- The mutating operations of §4 (plus the account / category creations
needed to build states). -/
inductive Op where
  | newAccount (userId : Nat) (name : String) (initialBalance : Option Int)
  | newCategory (userId : Nat) (name : String)
  | create (userId : Nat) (r : CreateReq)
  | update (userId expId : Nat) (r : UpdateReq)
  | remove (userId expId : Nat)
  | xfer (userId srcId dstId : Nat) (amount date : Int) (description : Option String)
deriving Repr, DecidableEq

/-- One request against the store; a rejected request leaves the store
unchanged (the routes return 4xx before any write). -/
def applyOp (db : Db) : Op → Db
  | .newAccount u n b => createAccount db u n b
  | .newCategory u n => createCategory db u n
  | .create u r => match createExpense db u r with | .ok d => d | .error _ => db
  | .update u i r => match updateExpense db u i r with | .ok d => d | .error _ => db
  | .remove u i => match deleteExpense db u i with | .ok d => d | .error _ => db
  | .xfer u s t a dt ds => match transfer db u s t a dt ds with | .ok d => d | .error _ => db

/-- A raw request type within the documented enum of `POST /expenses`
(absent, INCOME or EXPENSE). -/
def goodType (t : Option String) : Bool :=
  t == none || t == some "INCOME" || t == some "EXPENSE"

/-- Well-typed requests: creates stay within the documented type enum and
updates / deletes target INCOME or EXPENSE rows (transfer legs are managed
by the transfer route). -/
def okOp (db : Db) : Op → Bool
  | .newAccount _ _ _ => true
  | .newCategory _ _ => true
  | .create _ r => goodType r.type
  | .update _ i _ =>
    match findExpense db i with
    | some e => e.type == "INCOME" || e.type == "EXPENSE"
    | none => true
  | .remove _ i =>
    match findExpense db i with
    | some e => e.type == "INCOME" || e.type == "EXPENSE"
    | none => true
  | .xfer _ _ _ _ _ _ => true

/-- States reachable from the empty store by well-typed requests. -/
inductive ReachableGood : Db → Prop where
  | init : ReachableGood emptyDb
  | step (db : Db) (op : Op) : ReachableGood db → okOp db op = true →
      ReachableGood (applyOp db op)

/-- The spec's Σ of signed amounts over the transactions of one account. -/
def sumSigned (es : List Expense) (accId : Nat) : Int :=
  (es.map (fun e => if e.accountId = accId then signedAmount e.type e.amount else 0)).sum

/-- The balance invariant of §8, per account row. -/
def BalInv (db : Db) : Prop :=
  ∀ a ∈ db.accounts, a.currentBalance = a.initialBalance + sumSigned db.expenses a.id

/-- Structural facts maintained by every operation: expense ids are
distinct and all ids already allocated are below the generator. -/
structure Wf (db : Db) : Prop where
  expNodup : (db.expenses.map (fun e => e.id)).Nodup
  expLt : ∀ e ∈ db.expenses, e.id < db.nextId
  accLt : ∀ a ∈ db.accounts, a.id < db.nextId
  expAccLt : ∀ e ∈ db.expenses, e.accountId < db.nextId

/-- Decidable form of the balance invariant, for evaluation on concrete
states. -/
def balInvB (db : Db) : Bool :=
  db.accounts.all (fun a =>
    a.currentBalance == a.initialBalance + sumSigned db.expenses a.id)

/-! Concrete example states, built by running the embedded operations. -/

def dbPre : Db :=
  applyOp (applyOp emptyDb (Op.newAccount 1 "Main" (some 100))) (Op.newCategory 1 "Food")

def accPre : Account :=
  { id := 0, userId := 1, name := "Main", initialBalance := 100, currentBalance := 100 }

def catPre : Category := { id := 1, userId := 1, name := "Food" }

def reqExp : CreateReq :=
  { description := "lunch", amount := 5, type := some "EXPENSE", date := 0
    categoryId := 1, accountId := 0 }

def dbGood : Db := applyOp dbPre (Op.create 1 reqExp)

def accGood : Account :=
  { id := 0, userId := 1, name := "Main", initialBalance := 100, currentBalance := 95 }

def expGood : Expense :=
  { id := 2, description := "lunch", amount := 5, type := "EXPENSE", transactionDate := 0
    userId := 1, categoryId := 1, accountId := 0 }

def reqTin : CreateReq :=
  { description := "weird", amount := 7, type := some "TRANSFER_IN", date := 0
    categoryId := 1, accountId := 0 }

def dbBad : Db := applyOp dbPre (Op.create 1 reqTin)

def reqUpd : UpdateReq :=
  { description := none, amount := some 12, date := none, categoryId := none, accountId := none }

def dbGoodUpd : Db := applyOp dbGood (Op.update 1 2 reqUpd)

def dbTwo : Db :=
  applyOp (applyOp emptyDb (Op.newAccount 1 "A" (some 50))) (Op.newAccount 1 "B" none)

def accTwoA : Account :=
  { id := 0, userId := 1, name := "A", initialBalance := 50, currentBalance := 50 }

def accTwoB : Account :=
  { id := 1, userId := 1, name := "B", initialBalance := 0, currentBalance := 0 }

def dbXfer : Db := applyOp dbTwo (Op.xfer 1 0 1 10 0 none)

def updSame : UpdateReq :=
  { description := none, amount := some 10, date := none, categoryId := none, accountId := none }

def dbXferUpd : Db := applyOp dbXfer (Op.update 1 3 updSame)

def dbXferDel : Db := applyOp dbXfer (Op.remove 1 3)

def resGood : BalanceResult :=
  { accountId := 0, accountName := "Main", openingBalance := 100
    closingBalance := 95, periodNet := -5 }

def userU : User :=
  { id := 1, name := "Ana", email := "ana@mail", password := bcryptHash "pw"
    isVerified := false }

def dbUsers : Db :=
  { users := [userU], accounts := [], categories := [], expenses := [], nextId := 2 }

theorem balInvB_iff (db : Db) : balInvB db = true ↔ BalInv db := by
  unfold balInvB BalInv
  simp [List.all_eq_true]

theorem sumSigned_nil (i : Nat) : sumSigned [] i = 0 := rfl

theorem sumSigned_cons (e : Expense) (t : List Expense) (i : Nat) :
    sumSigned (e :: t) i
      = (if e.accountId = i then signedAmount e.type e.amount else 0) + sumSigned t i := by
  simp [sumSigned]

theorem sumSigned_append (l r : List Expense) (i : Nat) :
    sumSigned (l ++ r) i = sumSigned l i + sumSigned r i := by
  simp [sumSigned]

theorem sumSigned_eq_zero (es : List Expense) (i : Nat)
    (h : ∀ e ∈ es, e.accountId ≠ i) : sumSigned es i = 0 := by
  induction es with
  | nil => rfl
  | cons e t ih =>
    rw [sumSigned_cons, if_neg (h e (List.mem_cons_self e t)),
      ih (fun x hx => h x (List.mem_cons_of_mem e hx))]
    ring

theorem bump1_id (k : Nat) (d : Int) (a : Account) : (bump1 k d a).id = a.id := by
  unfold bump1; split <;> rfl

theorem bump1_userId (k : Nat) (d : Int) (a : Account) :
    (bump1 k d a).userId = a.userId := by
  unfold bump1; split <;> rfl

theorem bump1_initialBalance (k : Nat) (d : Int) (a : Account) :
    (bump1 k d a).initialBalance = a.initialBalance := by
  unfold bump1; split <;> rfl

theorem bump1_currentBalance (k : Nat) (d : Int) (a : Account) :
    (bump1 k d a).currentBalance = a.currentBalance + (if a.id = k then d else 0) := by
  unfold bump1; by_cases h : a.id = k <;> simp [h]

theorem bump1_bump1_same (k : Nat) (d1 d2 : Int) (a : Account) :
    bump1 k d2 (bump1 k d1 a) = bump1 k (d1 + d2) a := by
  unfold bump1; by_cases h : a.id = k <;> simp [h, add_assoc]

theorem bump1_zero (k : Nat) (a : Account) : bump1 k 0 a = a := by
  unfold bump1; split <;> simp

theorem findAccount_spec (db : Db) (i u : Nat) (a : Account)
    (h : findAccount db i u = some a) :
    a ∈ db.accounts ∧ a.id = i ∧ a.userId = u := by
  have hm := List.mem_of_find?_eq_some h
  have hp := List.find?_some h
  simp only [Bool.and_eq_true, beq_iff_eq] at hp
  exact ⟨hm, hp.1, hp.2⟩

theorem findExpense_spec (db : Db) (i : Nat) (e : Expense)
    (h : findExpense db i = some e) : e ∈ db.expenses ∧ e.id = i := by
  have hm := List.mem_of_find?_eq_some h
  have hp := List.find?_some h
  simp only [beq_iff_eq] at hp
  exact ⟨hm, hp⟩

theorem find_split {α : Type} (es : List α) (p : α → Bool) (x : α)
    (f : α → Nat)
    (hnd : (es.map f).Nodup)
    (hfind : es.find? p = some x) :
    ∃ l r, es = l ++ x :: r
      ∧ (∀ e ∈ l, f e ≠ f x) ∧ (∀ e ∈ r, f e ≠ f x) := by
  have hm := List.mem_of_find?_eq_some hfind
  obtain ⟨l, r, rfl⟩ := List.append_of_mem hm
  refine ⟨l, r, rfl, ?_, ?_⟩
  · intro e he hfe
    rw [List.map_append, List.map_cons, List.nodup_append] at hnd
    exact hnd.2.2 (List.mem_map_of_mem f he) (by rw [hfe]; exact List.mem_cons_self _ _)
  · intro e he hfe
    rw [List.map_append, List.map_cons, List.nodup_append, List.nodup_cons] at hnd
    exact hnd.2.1.1 (by rw [← hfe]; exact List.mem_map_of_mem f he)

theorem map_ite_eq_self (es : List Expense) (expId : Nat) (f : Expense → Expense)
    (h : ∀ e ∈ es, e.id ≠ expId) :
    es.map (fun e => if e.id == expId then f e else e) = es := by
  induction es with
  | nil => rfl
  | cons e t ih =>
    have h1 : (e.id == expId) = false := by
      simpa using h e (List.mem_cons_self e t)
    simp only [List.map_cons, h1, Bool.false_eq_true, ite_false]
    rw [ih (fun x hx => h x (List.mem_cons_of_mem e hx))]

theorem filter_ne_eq_self (es : List Expense) (expId : Nat)
    (h : ∀ e ∈ es, e.id ≠ expId) :
    es.filter (fun x => x.id != expId) = es := by
  apply List.filter_eq_self.mpr
  intro e he
  simpa using h e he

theorem sumSigned_map_replace (es : List Expense) (expId i : Nat) (old : Expense)
    (f : Expense → Expense)
    (hnd : (es.map (fun e => e.id)).Nodup)
    (hfind : es.find? (fun e => e.id == expId) = some old) :
    sumSigned (es.map (fun e => if e.id == expId then f e else e)) i
      = sumSigned es i
        - (if old.accountId = i then signedAmount old.type old.amount else 0)
        + (if (f old).accountId = i then signedAmount (f old).type (f old).amount else 0) := by
  have hid : old.id = expId := by simpa using List.find?_some hfind
  obtain ⟨l, r, heq, hl, hr⟩ := find_split es (fun e => e.id == expId) old
    (fun e => e.id) hnd hfind
  subst heq
  have hl' : ∀ e ∈ l, e.id ≠ expId := fun e he => by rw [← hid]; exact hl e he
  have hr' : ∀ e ∈ r, e.id ≠ expId := fun e he => by rw [← hid]; exact hr e he
  rw [List.map_append, List.map_cons, map_ite_eq_self l expId f hl',
    map_ite_eq_self r expId f hr', if_pos (by simp [hid])]
  rw [sumSigned_append, sumSigned_append, sumSigned_cons, sumSigned_cons]
  ring

theorem sumSigned_filter_ne (es : List Expense) (expId i : Nat) (old : Expense)
    (hnd : (es.map (fun e => e.id)).Nodup)
    (hfind : es.find? (fun e => e.id == expId) = some old) :
    sumSigned (es.filter (fun x => x.id != expId)) i
      = sumSigned es i
        - (if old.accountId = i then signedAmount old.type old.amount else 0) := by
  have hid : old.id = expId := by simpa using List.find?_some hfind
  obtain ⟨l, r, heq, hl, hr⟩ := find_split es (fun e => e.id == expId) old
    (fun e => e.id) hnd hfind
  subst heq
  have hl' : ∀ e ∈ l, e.id ≠ expId := fun e he => by rw [← hid]; exact hl e he
  have hr' : ∀ e ∈ r, e.id ≠ expId := fun e he => by rw [← hid]; exact hr e he
  rw [List.filter_append, List.filter_cons, filter_ne_eq_self l expId hl',
    filter_ne_eq_self r expId hr']
  simp only [hid, bne_self_eq_false, Bool.false_eq_true, if_neg (by simp : ¬ False)]
  rw [sumSigned_append, sumSigned_append, sumSigned_cons]
  ring

theorem map_fun_ext {α β : Type} (l : List α) (f g : α → β) (h : ∀ a, f a = g a) :
    l.map f = l.map g :=
  congrArg l.map (funext h)

theorem map_ids_preserved (es : List Expense) (g : Expense → Expense)
    (h : ∀ e, (g e).id = e.id) :
    (es.map g).map (fun e => e.id) = es.map (fun e => e.id) := by
  rw [List.map_map]
  exact map_fun_ext es _ _ (fun e => h e)

theorem nodup_append_fresh (ids : List Nat) (n : Nat) (hnd : ids.Nodup)
    (hlt : ∀ x ∈ ids, x < n) : (ids ++ [n]).Nodup := by
  rw [List.nodup_append]
  refine ⟨hnd, List.nodup_singleton n, ?_⟩
  intro x hx hx1
  rw [List.mem_singleton] at hx1
  exact absurd (hlt x hx) (by omega)

theorem nodup_append_fresh2 (ids : List Nat) (n m : Nat) (hnd : ids.Nodup)
    (hlt : ∀ x ∈ ids, x < n) (hnm : n < m) : (ids ++ [n, m]).Nodup := by
  rw [List.nodup_append]
  refine ⟨hnd, by simp [List.nodup_cons]; omega, ?_⟩
  intro x hx hx1
  have := hlt x hx
  rcases List.mem_cons.mp hx1 with h1 | h1
  · omega
  · rw [List.mem_singleton] at h1; omega

theorem createExpense_ok_effect (db : Db) (u : Nat) (r : CreateReq) (db' : Db)
    (h : createExpense db u r = .ok db') :
    (∃ acc, findAccount db r.accountId u = some acc)
    ∧ (∃ cat, findCategory db r.categoryId u = some cat)
    ∧ db'.users = db.users
    ∧ db'.categories = db.categories
    ∧ db'.nextId = db.nextId + 1
    ∧ db'.expenses = db.expenses ++
        [{ id := db.nextId, description := r.description, amount := r.amount
           type := storedType r.type, transactionDate := r.date
           userId := u, categoryId := r.categoryId, accountId := r.accountId }]
    ∧ db'.accounts = db.accounts.map (bump1 r.accountId (createDelta r.type r.amount)) := by
  unfold createExpense at h
  cases hacc : findAccount db r.accountId u <;> rw [hacc] at h
  · exact absurd h (by simp)
  cases hcat : findCategory db r.categoryId u <;> rw [hcat] at h
  · exact absurd h (by simp)
  simp only [Except.ok.injEq] at h
  subst h
  exact ⟨⟨_, rfl⟩, ⟨_, rfl⟩, rfl, rfl, rfl, rfl, rfl⟩

theorem updateExpense_ok_effect (db : Db) (u expId : Nat) (r : UpdateReq)
    (old : Expense) (db' : Db)
    (hfind : findExpense db expId = some old)
    (h : updateExpense db u expId r = .ok db') :
    old.userId = u
    ∧ db'.users = db.users
    ∧ db'.categories = db.categories
    ∧ db'.nextId = db.nextId
    ∧ ((findAccount db (r.accountId.getD old.accountId) u).isSome = true
        ∨ r.accountId.getD old.accountId = old.accountId)
    ∧ db'.expenses = db.expenses.map (fun e =>
        if e.id == expId then
          replaceFields (r.description.getD old.description) (r.amount.getD old.amount)
            (r.date.getD old.transactionDate) (r.categoryId.getD old.categoryId)
            (r.accountId.getD old.accountId) e
        else e)
    ∧ db'.accounts = db.accounts.map (fun a =>
        bump1 (r.accountId.getD old.accountId)
          (updReapply old.type (r.amount.getD old.amount))
          (bump1 old.accountId (updRevert old.type old.amount) a)) := by
  unfold updateExpense at h
  split at h
  · exact absurd h (by simp)
  rename_i old2 heq
  rw [hfind] at heq
  injection heq with heq
  subst heq
  split at h
  · exact absurd h (by simp)
  rename_i hu
  have hu' : old.userId = u := by simpa using hu
  simp only [] at h
  split at h
  · exact absurd h (by simp)
  split at h
  · exact absurd h (by simp)
  rename_i hacc hcat
  refine ⟨hu', ?_⟩
  have heff : (findAccount db (r.accountId.getD old.accountId) u).isSome = true
      ∨ r.accountId.getD old.accountId = old.accountId := by
    clear h hcat
    simp only [Bool.not_eq_true] at hacc
    simp only [Bool.not_eq_false'] at hacc
    revert hacc
    generalize r.accountId = o
    intro hacc
    split at hacc
    · rename_i aid
      simp only [Option.getD_some]
      by_cases hne : (aid != old.accountId) = true
      · rw [if_pos hne] at hacc; left; exact hacc
      · right; simpa using hne
    · right; rfl
  split at h
  · rename_i hsame
    have hsame' : old.accountId = r.accountId.getD old.accountId := by simpa using hsame
    split at h
    · simp only [Except.ok.injEq] at h
      subst h
      refine ⟨rfl, rfl, rfl, heff, rfl, ?_⟩
      unfold bumpAccount
      refine map_fun_ext _ _ _ (fun a => ?_)
      rw [← hsame', bump1_bump1_same]
    · rename_i hz
      have hz' : updRevert old.type old.amount
          + updReapply old.type (r.amount.getD old.amount) = 0 := by
        simpa using hz
      simp only [Except.ok.injEq] at h
      subst h
      refine ⟨rfl, rfl, rfl, heff, rfl, ?_⟩
      have hpt : ∀ a : Account,
          bump1 (r.accountId.getD old.accountId)
            (updReapply old.type (r.amount.getD old.amount))
            (bump1 old.accountId (updRevert old.type old.amount) a) = id a := by
        intro a
        rw [← hsame', bump1_bump1_same, hz', bump1_zero]
        rfl
      rw [map_fun_ext _ _ _ hpt, List.map_id]
  · rename_i hdiff
    simp only [Except.ok.injEq] at h
    subst h
    refine ⟨rfl, rfl, rfl, heff, rfl, ?_⟩
    unfold bumpAccount
    rw [List.map_map]
    rfl

theorem deleteExpense_ok_effect (db : Db) (u expId : Nat) (e : Expense) (db' : Db)
    (hfind : findExpense db expId = some e)
    (h : deleteExpense db u expId = .ok db') :
    e.userId = u
    ∧ db'.users = db.users
    ∧ db'.categories = db.categories
    ∧ db'.nextId = db.nextId
    ∧ db'.expenses = db.expenses.filter (fun x => x.id != expId)
    ∧ db'.accounts = db.accounts.map (bump1 e.accountId (delRevert e.type e.amount)) := by
  unfold deleteExpense at h
  split at h
  · exact absurd h (by simp)
  rename_i e2 heq
  rw [hfind] at heq
  injection heq with heq
  subst heq
  split at h
  · exact absurd h (by simp)
  rename_i hu
  have hu' : e.userId = u := by simpa using hu
  simp only [Except.ok.injEq] at h
  subst h
  exact ⟨hu', rfl, rfl, rfl, rfl, rfl⟩

theorem transfer_ok_effect (db : Db) (u A B : Nat) (amt date : Int)
    (desc : Option String) (db' : Db)
    (h : transfer db u A B amt date desc = .ok db') :
    A ≠ B ∧ 0 < amt
    ∧ ∃ src dst nid catId,
        findAccount db A u = some src
        ∧ findAccount db B u = some dst
        ∧ db.nextId ≤ nid
        ∧ db'.users = db.users
        ∧ db'.nextId = nid + 2
        ∧ db'.expenses = db.expenses ++
            [{ id := nid, description := desc.getD ("Transferência para " ++ dst.name)
               amount := amt, type := "TRANSFER_OUT", transactionDate := date
               userId := u, categoryId := catId, accountId := A },
             { id := nid + 1, description := desc.getD ("Transferência de " ++ src.name)
               amount := amt, type := "TRANSFER_IN", transactionDate := date
               userId := u, categoryId := catId, accountId := B }]
        ∧ db'.accounts = db.accounts.map (fun a => bump1 B amt (bump1 A (-amt) a)) := by
  unfold transfer at h
  split at h
  · exact absurd h (by simp)
  rename_i hAB
  have hAB' : A ≠ B := by simpa using hAB
  split at h
  · exact absurd h (by simp)
  rename_i hpos
  have hpos' : 0 < amt := by omega
  split at h
  case _ src dst hsrc hdst =>
    simp only [] at h
    refine ⟨hAB', hpos', src, dst, ?_⟩
    cases hcat : db.categories.find? (fun c => c.name == "Transferência" && c.userId == u) with
    | some c =>
      rw [hcat] at h
      simp only [Except.ok.injEq] at h
      subst h
      exact ⟨db.nextId, c.id, hsrc, hdst, Nat.le_refl _, rfl, rfl, rfl, by
        unfold bumpAccount; rw [List.map_map]; rfl⟩
    | none =>
      rw [hcat] at h
      simp only [Except.ok.injEq] at h
      subst h
      exact ⟨db.nextId + 1, db.nextId, hsrc, hdst, Nat.le_succ _, rfl, rfl, rfl, by
        unfold bumpAccount; rw [List.map_map]; rfl⟩
  case _ =>
    exact absurd h (by simp)

theorem signedAmount_INCOME (a : Int) : signedAmount "INCOME" a = a := rfl

theorem signedAmount_EXPENSE (a : Int) : signedAmount "EXPENSE" a = -a := rfl

theorem signedAmount_TRANSFER_IN (a : Int) : signedAmount "TRANSFER_IN" a = a := rfl

theorem signedAmount_TRANSFER_OUT (a : Int) : signedAmount "TRANSFER_OUT" a = -a := rfl

theorem storedType_none : storedType none = "EXPENSE" := rfl

theorem storedType_INCOME : storedType (some "INCOME") = "INCOME" := rfl

theorem storedType_EXPENSE : storedType (some "EXPENSE") = "EXPENSE" := rfl

theorem goodType_elim (rt : Option String) (h : goodType rt = true) :
    rt = none ∨ rt = some "INCOME" ∨ rt = some "EXPENSE" := by
  unfold goodType at h
  simp only [Bool.or_eq_true, beq_iff_eq] at h
  tauto

theorem createDelta_eq_signed (rt : Option String) (amt : Int)
    (h : goodType rt = true) :
    createDelta rt amt = signedAmount (storedType rt) amt := by
  rcases goodType_elim rt h with h | h | h <;> subst h <;> rfl

theorem updRevert_eq_signed (t : String) (a : Int)
    (h : t = "INCOME" ∨ t = "EXPENSE") :
    updRevert t a = -signedAmount t a := by
  rcases h with h | h <;> subst h
  · rw [signedAmount_INCOME]; rfl
  · rw [signedAmount_EXPENSE, neg_neg]; rfl

theorem updReapply_eq_signed (t : String) (a : Int)
    (h : t = "INCOME" ∨ t = "EXPENSE") :
    updReapply t a = signedAmount t a := by
  rcases h with h | h <;> subst h <;> rfl

theorem delRevert_eq_signed (t : String) (a : Int)
    (h : t = "INCOME" ∨ t = "EXPENSE") :
    delRevert t a = -signedAmount t a := by
  rcases h with h | h <;> subst h
  · rw [signedAmount_INCOME]; rfl
  · rw [signedAmount_EXPENSE, neg_neg]; rfl

theorem sumSigned_singleton (e : Expense) (i : Nat) :
    sumSigned [e] i = if e.accountId = i then signedAmount e.type e.amount else 0 := by
  rw [sumSigned_cons, sumSigned_nil]; ring

theorem ite_eq_comm (a b : Nat) (x : Int) :
    (if a = b then x else 0) = (if b = a then x else 0) := by
  by_cases h : a = b
  · rw [if_pos h, if_pos h.symm]
  · rw [if_neg h, if_neg (fun hh => h hh.symm)]

theorem neg_ite_zero (P : Prop) [Decidable P] (x : Int) :
    (if P then -x else 0) = -(if P then x else 0) := by
  split <;> simp

theorem wf_empty : Wf emptyDb := by
  constructor <;> simp [emptyDb]

theorem balInv_empty : BalInv emptyDb := by
  intro a ha
  simp [emptyDb] at ha

theorem preserve_newAccount (db : Db) (u : Nat) (n : String) (b : Option Int)
    (hwf : Wf db) (hinv : BalInv db) :
    Wf (createAccount db u n b) ∧ BalInv (createAccount db u n b) := by
  constructor
  · constructor
    · exact hwf.expNodup
    · intro e he
      have := hwf.expLt e he
      show e.id < db.nextId + 1
      omega
    · intro a ha
      rcases List.mem_append.mp ha with h1 | h1
      · have := hwf.accLt a h1
        show a.id < db.nextId + 1
        omega
      · rw [List.mem_singleton] at h1
        subst h1
        show db.nextId < db.nextId + 1
        omega
    · intro e he
      have := hwf.expAccLt e he
      show e.accountId < db.nextId + 1
      omega
  · intro a ha
    rcases List.mem_append.mp ha with h1 | h1
    · exact hinv a h1
    · rw [List.mem_singleton] at h1
      subst h1
      show b.getD 0 = b.getD 0 + sumSigned db.expenses db.nextId
      rw [sumSigned_eq_zero db.expenses db.nextId
        (fun e he => Nat.ne_of_lt (hwf.expAccLt e he))]
      ring

theorem preserve_newCategory (db : Db) (u : Nat) (n : String)
    (hwf : Wf db) (hinv : BalInv db) :
    Wf (createCategory db u n) ∧ BalInv (createCategory db u n) := by
  constructor
  · constructor
    · exact hwf.expNodup
    · intro e he; have := hwf.expLt e he; show e.id < db.nextId + 1; omega
    · intro a ha; have := hwf.accLt a ha; show a.id < db.nextId + 1; omega
    · intro e he; have := hwf.expAccLt e he; show e.accountId < db.nextId + 1; omega
  · intro a ha
    exact hinv a ha

theorem preserve_create (db : Db) (u : Nat) (r : CreateReq) (db' : Db)
    (hwf : Wf db) (hinv : BalInv db) (hgt : goodType r.type = true)
    (h : createExpense db u r = .ok db') : Wf db' ∧ BalInv db' := by
  obtain ⟨⟨acc, hacc⟩, -, hus, hcats, hnext, hexp, haccs⟩ :=
    createExpense_ok_effect db u r db' h
  obtain ⟨haccMem, haccId, -⟩ := findAccount_spec db r.accountId u acc hacc
  have hkLt : r.accountId < db.nextId := haccId ▸ hwf.accLt acc haccMem
  constructor
  · constructor
    · rw [hexp, List.map_append]
      exact nodup_append_fresh _ _ hwf.expNodup (by
        intro x hx
        obtain ⟨e, he, rfl⟩ := List.mem_map.mp hx
        exact hwf.expLt e he)
    · intro e he
      rw [hexp] at he
      rw [hnext]
      rcases List.mem_append.mp he with h1 | h1
      · have := hwf.expLt e h1; omega
      · rw [List.mem_singleton] at h1
        subst h1
        show db.nextId < db.nextId + 1
        omega
    · intro a ha
      rw [haccs] at ha
      obtain ⟨a0, ha0, rfl⟩ := List.mem_map.mp ha
      rw [bump1_id, hnext]
      have := hwf.accLt a0 ha0
      omega
    · intro e he
      rw [hexp] at he
      rw [hnext]
      rcases List.mem_append.mp he with h1 | h1
      · have := hwf.expAccLt e h1; omega
      · rw [List.mem_singleton] at h1; subst h1
        show r.accountId < db.nextId + 1
        omega
  · intro a' ha'
    rw [haccs] at ha'
    obtain ⟨a0, ha0, rfl⟩ := List.mem_map.mp ha'
    rw [bump1_id, bump1_initialBalance, bump1_currentBalance, hexp,
      sumSigned_append, sumSigned_singleton]
    show a0.currentBalance + (if a0.id = r.accountId then createDelta r.type r.amount else 0)
      = a0.initialBalance + (sumSigned db.expenses a0.id
          + (if r.accountId = a0.id then signedAmount (storedType r.type) r.amount else 0))
    rw [hinv a0 ha0, createDelta_eq_signed r.type r.amount hgt,
      ite_eq_comm r.accountId a0.id]
    ring

theorem preserve_update (db : Db) (u expId : Nat) (r : UpdateReq) (db' : Db)
    (hwf : Wf db) (hinv : BalInv db)
    (hok : okOp db (Op.update u expId r) = true)
    (h : updateExpense db u expId r = .ok db') : Wf db' ∧ BalInv db' := by
  cases hfind : findExpense db expId with
  | none =>
    unfold updateExpense at h
    rw [hfind] at h
    exact absurd h (by simp)
  | some old =>
    have htype : old.type = "INCOME" ∨ old.type = "EXPENSE" := by
      simp only [okOp] at hok
      rw [hfind] at hok
      simpa using hok
    obtain ⟨huser, hus, hcats, hnext, hval, hexp, haccs⟩ :=
      updateExpense_ok_effect db u expId r old db' hfind h
    obtain ⟨holdMem, holdId⟩ := findExpense_spec db expId old hfind
    have hkLt : r.accountId.getD old.accountId < db.nextId := by
      rcases hval with hval | hval
      · rw [Option.isSome_iff_exists] at hval
        obtain ⟨acc, hacc⟩ := hval
        obtain ⟨haccMem, haccId, -⟩ := findAccount_spec db _ u acc hacc
        exact haccId ▸ hwf.accLt acc haccMem
      · rw [hval]
        exact hwf.expAccLt old holdMem
    have hidpres : ∀ e : Expense,
        ((fun e => if e.id == expId then
            replaceFields (r.description.getD old.description) (r.amount.getD old.amount)
              (r.date.getD old.transactionDate) (r.categoryId.getD old.categoryId)
              (r.accountId.getD old.accountId) e else e) e).id = e.id := by
      intro e
      by_cases hc : (e.id == expId) = true
      · show (if (e.id == expId) = true then _ else e).id = e.id
        rw [if_pos hc]
        rfl
      · show (if (e.id == expId) = true then _ else e).id = e.id
        rw [if_neg hc]
    constructor
    · constructor
      · rw [hexp, map_ids_preserved _ _ hidpres]
        exact hwf.expNodup
      · intro e' he'
        rw [hexp] at he'
        obtain ⟨e, he, rfl⟩ := List.mem_map.mp he'
        rw [hidpres e, hnext]
        exact hwf.expLt e he
      · intro a' ha'
        rw [haccs] at ha'
        obtain ⟨a0, ha0, rfl⟩ := List.mem_map.mp ha'
        rw [bump1_id, bump1_id, hnext]
        exact hwf.accLt a0 ha0
      · intro e' he'
        rw [hexp] at he'
        obtain ⟨e, he, rfl⟩ := List.mem_map.mp he'
        rw [hnext]
        by_cases hc : (e.id == expId) = true
        · show (if (e.id == expId) = true then _ else e).accountId < db.nextId
          rw [if_pos hc]
          exact hkLt
        · show (if (e.id == expId) = true then _ else e).accountId < db.nextId
          rw [if_neg hc]
          exact hwf.expAccLt e he
    · intro a' ha'
      rw [haccs] at ha'
      obtain ⟨a0, ha0, rfl⟩ := List.mem_map.mp ha'
      rw [bump1_id, bump1_id, bump1_initialBalance, bump1_initialBalance,
        bump1_currentBalance, bump1_id, bump1_currentBalance, hexp,
        sumSigned_map_replace db.expenses expId a0.id old _ hwf.expNodup hfind]
      show a0.currentBalance
          + (if a0.id = old.accountId then updRevert old.type old.amount else 0)
          + (if a0.id = r.accountId.getD old.accountId
              then updReapply old.type (r.amount.getD old.amount) else 0)
        = a0.initialBalance
          + (sumSigned db.expenses a0.id
             - (if old.accountId = a0.id then signedAmount old.type old.amount else 0)
             + (if r.accountId.getD old.accountId = a0.id
                 then signedAmount old.type (r.amount.getD old.amount) else 0))
      rw [updRevert_eq_signed old.type old.amount htype,
        updReapply_eq_signed old.type (r.amount.getD old.amount) htype,
        neg_ite_zero, ite_eq_comm old.accountId a0.id,
        ite_eq_comm (r.accountId.getD old.accountId) a0.id, hinv a0 ha0]
      ring

theorem preserve_delete (db : Db) (u expId : Nat) (db' : Db)
    (hwf : Wf db) (hinv : BalInv db)
    (hok : okOp db (Op.remove u expId) = true)
    (h : deleteExpense db u expId = .ok db') : Wf db' ∧ BalInv db' := by
  cases hfind : findExpense db expId with
  | none =>
    unfold deleteExpense at h
    rw [hfind] at h
    exact absurd h (by simp)
  | some e =>
    have htype : e.type = "INCOME" ∨ e.type = "EXPENSE" := by
      simp only [okOp] at hok
      rw [hfind] at hok
      simpa using hok
    obtain ⟨huser, hus, hcats, hnext, hexp, haccs⟩ :=
      deleteExpense_ok_effect db u expId e db' hfind h
    constructor
    · constructor
      · rw [hexp]
        exact List.Nodup.sublist ((List.filter_sublist _).map _) hwf.expNodup
      · intro e' he'
        rw [hexp] at he'
        rw [hnext]
        exact hwf.expLt e' (List.mem_of_mem_filter he')
      · intro a' ha'
        rw [haccs] at ha'
        obtain ⟨a0, ha0, rfl⟩ := List.mem_map.mp ha'
        rw [bump1_id, hnext]
        exact hwf.accLt a0 ha0
      · intro e' he'
        rw [hexp] at he'
        rw [hnext]
        exact hwf.expAccLt e' (List.mem_of_mem_filter he')
    · intro a' ha'
      rw [haccs] at ha'
      obtain ⟨a0, ha0, rfl⟩ := List.mem_map.mp ha'
      rw [bump1_id, bump1_initialBalance, bump1_currentBalance, hexp,
        sumSigned_filter_ne db.expenses expId a0.id e hwf.expNodup hfind]
      rw [delRevert_eq_signed e.type e.amount htype, neg_ite_zero,
        ite_eq_comm e.accountId a0.id, hinv a0 ha0]
      ring

theorem preserve_transfer (db : Db) (u A B : Nat) (amt date : Int)
    (desc : Option String) (db' : Db)
    (hwf : Wf db) (hinv : BalInv db)
    (h : transfer db u A B amt date desc = .ok db') : Wf db' ∧ BalInv db' := by
  obtain ⟨hAB, hpos, src, dst, nid, catId, hsrc, hdst, hnid, hus, hnext, hexp, haccs⟩ :=
    transfer_ok_effect db u A B amt date desc db' h
  obtain ⟨hsrcMem, hsrcId, -⟩ := findAccount_spec db A u src hsrc
  obtain ⟨hdstMem, hdstId, -⟩ := findAccount_spec db B u dst hdst
  have hALt : A < db.nextId := hsrcId ▸ hwf.accLt src hsrcMem
  have hBLt : B < db.nextId := hdstId ▸ hwf.accLt dst hdstMem
  constructor
  · constructor
    · rw [hexp, List.map_append]
      exact nodup_append_fresh2 _ nid (nid + 1) hwf.expNodup (by
        intro x hx
        obtain ⟨e, he, rfl⟩ := List.mem_map.mp hx
        exact lt_of_lt_of_le (hwf.expLt e he) hnid) (Nat.lt_succ_self _)
    · intro e' he'
      rw [hexp] at he'
      rw [hnext]
      rcases List.mem_append.mp he' with h1 | h1
      · have := hwf.expLt e' h1; omega
      · rw [List.mem_cons, List.mem_singleton] at h1
        rcases h1 with rfl | rfl
        · show nid < nid + 2; omega
        · show nid + 1 < nid + 2; omega
    · intro a' ha'
      rw [haccs] at ha'
      obtain ⟨a0, ha0, rfl⟩ := List.mem_map.mp ha'
      rw [bump1_id, bump1_id, hnext]
      have := hwf.accLt a0 ha0
      omega
    · intro e' he'
      rw [hexp] at he'
      rw [hnext]
      rcases List.mem_append.mp he' with h1 | h1
      · have := hwf.expAccLt e' h1; omega
      · rw [List.mem_cons, List.mem_singleton] at h1
        rcases h1 with rfl | rfl
        · show A < nid + 2; omega
        · show B < nid + 2; omega
  · intro a' ha'
    rw [haccs] at ha'
    obtain ⟨a0, ha0, rfl⟩ := List.mem_map.mp ha'
    rw [bump1_id, bump1_id, bump1_initialBalance, bump1_initialBalance,
      bump1_currentBalance, bump1_id, bump1_currentBalance, hexp,
      sumSigned_append, sumSigned_cons, sumSigned_singleton]
    show a0.currentBalance + (if a0.id = A then -amt else 0)
        + (if a0.id = B then amt else 0)
      = a0.initialBalance
        + (sumSigned db.expenses a0.id
           + ((if A = a0.id then signedAmount "TRANSFER_OUT" amt else 0)
              + (if B = a0.id then signedAmount "TRANSFER_IN" amt else 0)))
    rw [signedAmount_TRANSFER_OUT, signedAmount_TRANSFER_IN, neg_ite_zero,
      ite_eq_comm A a0.id, ite_eq_comm B a0.id, hinv a0 ha0]
    rw [neg_ite_zero]
    ring

theorem preserve_step (db : Db) (op : Op) (hwf : Wf db) (hinv : BalInv db)
    (hok : okOp db op = true) : Wf (applyOp db op) ∧ BalInv (applyOp db op) := by
  cases op with
  | newAccount u n b => exact preserve_newAccount db u n b hwf hinv
  | newCategory u n => exact preserve_newCategory db u n hwf hinv
  | create u r =>
    cases hres : createExpense db u r with
    | ok d =>
      have hr2 := preserve_create db u r d hwf hinv (by simpa [okOp] using hok) hres
      simpa [applyOp, hres] using hr2
    | error er =>
      simpa [applyOp, hres] using (⟨hwf, hinv⟩ : Wf db ∧ BalInv db)
  | update u i r =>
    cases hres : updateExpense db u i r with
    | ok d =>
      have hr2 := preserve_update db u i r d hwf hinv hok hres
      simpa [applyOp, hres] using hr2
    | error er =>
      simpa [applyOp, hres] using (⟨hwf, hinv⟩ : Wf db ∧ BalInv db)
  | remove u i =>
    cases hres : deleteExpense db u i with
    | ok d =>
      have hr2 := preserve_delete db u i d hwf hinv hok hres
      simpa [applyOp, hres] using hr2
    | error er =>
      simpa [applyOp, hres] using (⟨hwf, hinv⟩ : Wf db ∧ BalInv db)
  | xfer u s t a dt ds =>
    cases hres : transfer db u s t a dt ds with
    | ok d =>
      have hr2 := preserve_transfer db u s t a dt ds d hwf hinv hres
      simpa [applyOp, hres] using hr2
    | error er =>
      simpa [applyOp, hres] using (⟨hwf, hinv⟩ : Wf db ∧ BalInv db)

theorem reachable_wf_balInv (db : Db) (h : ReachableGood db) : Wf db ∧ BalInv db := by
  induction h with
  | init => exact ⟨wf_empty, balInv_empty⟩
  | step db2 op hr hok ih => exact preserve_step db2 op ih.1 ih.2 hok

theorem foldl_signed_eq (es : List Expense) (i : Nat) (acc : Int) :
    (es.filter (fun e => e.accountId == i)).foldl
      (fun b e =>
        if e.type == "INCOME" || e.type == "TRANSFER_IN" then b + e.amount
        else b - e.amount) acc
      = acc + sumSigned es i := by
  induction es generalizing acc with
  | nil => simp [sumSigned]
  | cons e t ih =>
    rw [List.filter_cons]
    by_cases hc : (e.accountId == i) = true
    · rw [if_pos hc, List.foldl_cons]
      by_cases ht : (e.type == "INCOME" || e.type == "TRANSFER_IN") = true
      · rw [if_pos ht, ih, sumSigned_cons,
          if_pos (show e.accountId = i by simpa using hc)]
        unfold signedAmount
        rw [if_pos ht]
        ring
      · rw [if_neg ht, ih, sumSigned_cons,
          if_pos (show e.accountId = i by simpa using hc)]
        unfold signedAmount
        rw [if_neg ht]
        ring
    · rw [if_neg hc, ih, sumSigned_cons,
        if_neg (show ¬ e.accountId = i by simpa using hc)]
      ring

theorem reconstructBalance_eq_sumSigned (db : Db) (i : Nat) :
    reconstructBalance db i = sumSigned db.expenses i := by
  unfold reconstructBalance
  rw [foldl_signed_eq]
  ring

theorem getNetChange_eq_sumSigned (es : List Expense) (i : Nat) :
    getNetChange es i = sumSigned es i := by
  unfold getNetChange
  rw [foldl_signed_eq]
  ring

theorem storedType_good (rt : Option String) (h : goodType rt = true) :
    storedType rt = "INCOME" ∨ storedType rt = "EXPENSE" := by
  rcases goodType_elim rt h with h | h | h <;> subst h
  · right; rfl
  · left; rfl
  · right; rfl

theorem find?_append_of_none {α : Type} (l l' : List α) (p : α → Bool)
    (h : l.find? p = none) : (l ++ l').find? p = l'.find? p := by
  induction l with
  | nil => rfl
  | cons x t ih =>
    cases hx : p x with
    | true =>
      rw [List.find?_cons_of_pos _ hx] at h
      exact absurd h (by simp)
    | false =>
      rw [List.find?_cons_of_neg _ (by simp [hx])] at h
      rw [List.cons_append, List.find?_cons_of_neg _ (by simp [hx])]
      exact ih h

theorem reachable_dbPre : ReachableGood dbPre :=
  .step (applyOp emptyDb (Op.newAccount 1 "Main" (some 100))) (Op.newCategory 1 "Food")
    (.step emptyDb (Op.newAccount 1 "Main" (some 100)) .init (by decide))
    (by decide)

theorem reachable_dbGood : ReachableGood dbGood :=
  .step dbPre (Op.create 1 reqExp) reachable_dbPre (by decide)

/-- C1 (amended): in every state reachable by well-typed requests (creates
within the documented INCOME/EXPENSE enum, updates and deletes touching
only INCOME/EXPENSE rows), each account's cached balance equals its initial
balance plus the signed sum of its transactions; the reconstruction and
period-aggregation paths both compute exactly that signed sum, and the
cached-update deltas (create / update-revert / update-reapply /
delete-revert) agree with `signedAmount` on the INCOME and EXPENSE types.
As stated over arbitrary request sequences the claim is false (see the
counterexample): the create path decides the delta by a strict comparison
of the raw string with INCOME, which diverges from the stored type's
signed amount on inputs such as TRANSFER_IN. -/
theorem C1_balance_invariant :
    (∀ db, ReachableGood db → ∀ a ∈ db.accounts,
        a.currentBalance = a.initialBalance + sumSigned db.expenses a.id)
    ∧ (∀ db i, reconstructBalance db i = sumSigned db.expenses i)
    ∧ (∀ es i, getNetChange es i = sumSigned es i)
    ∧ (∀ rt amt, goodType rt = true →
        createDelta rt amt = signedAmount (storedType rt) amt)
    ∧ (∀ t amt, t = "INCOME" ∨ t = "EXPENSE" →
        updRevert t amt = -signedAmount t amt
        ∧ updReapply t amt = signedAmount t amt
        ∧ delRevert t amt = -signedAmount t amt) := by
  refine ⟨fun db h => (reachable_wf_balInv db h).2,
    reconstructBalance_eq_sumSigned, getNetChange_eq_sumSigned,
    fun rt amt h => createDelta_eq_signed rt amt h,
    fun t amt h => ⟨updRevert_eq_signed t amt h, updReapply_eq_signed t amt h,
      delRevert_eq_signed t amt h⟩⟩

/-- Witness for C1 at a concrete reachable state: an account created with
initial balance 100 and one EXPENSE of 5 carries cached balance 95. -/
theorem C1_witness :
    accGood.currentBalance = accGood.initialBalance + sumSigned dbGood.expenses accGood.id
    ∧ goodType (some "EXPENSE") = true
    ∧ createDelta (some "EXPENSE") 5 = signedAmount (storedType (some "EXPENSE")) 5 := by
  refine ⟨C1_balance_invariant.1 dbGood reachable_dbGood accGood (by decide), by decide, ?_⟩
  exact C1_balance_invariant.2.2.2.1 (some "EXPENSE") 5 (by decide)

/-- Counterexample to C1 as stated: a creation request with raw type
`TRANSFER_IN` succeeds (the route accepts any string), stores a transaction
whose signed amount is +7, yet decrements the cached balance by 7, so the
resulting state violates the invariant. -/
theorem C1_cex :
    createExpense dbPre 1 reqTin = Except.ok dbBad
    ∧ balInvB dbBad = false
    ∧ createDelta (some "TRANSFER_IN") 7 = -7
    ∧ signedAmount (storedType (some "TRANSFER_IN")) 7 = 7 :=
  ⟨rfl, rfl, rfl, rfl⟩

/-- C2 (amended): for a transaction of type INCOME or EXPENSE, the update
path computes `revertVal = -signedAmount(oldType, oldAmount)` and
`newVal = signedAmount(oldType, newAmount)` (type never changes; the code
tests `oldType === EXPENSE` for the revert and `oldType === INCOME` for the
reapply, which coincide with the signed-amount inverses only on these two
types), rewrites the row keeping its type, and each account's balance
changes by the revert contribution when it is the old account plus the
reapply contribution when it is the new account — covering both the
same-account net delta (with the zero-net skip) and the cross-account
split.  For TRANSFER_IN / TRANSFER_OUT rows the claimed identities fail
(see the counterexample). -/
theorem C2_update_algorithm (db : Db) (u expId : Nat) (r : UpdateReq)
    (old : Expense) (db' : Db)
    (hfind : findExpense db expId = some old)
    (htype : old.type = "INCOME" ∨ old.type = "EXPENSE")
    (h : updateExpense db u expId r = .ok db') :
    updRevert old.type old.amount = -signedAmount old.type old.amount
    ∧ updReapply old.type (r.amount.getD old.amount)
        = signedAmount old.type (r.amount.getD old.amount)
    ∧ db'.expenses = db.expenses.map (fun e =>
        if e.id == expId then
          replaceFields (r.description.getD old.description) (r.amount.getD old.amount)
            (r.date.getD old.transactionDate) (r.categoryId.getD old.categoryId)
            (r.accountId.getD old.accountId) e
        else e)
    ∧ (∀ e : Expense, (replaceFields (r.description.getD old.description)
        (r.amount.getD old.amount) (r.date.getD old.transactionDate)
        (r.categoryId.getD old.categoryId) (r.accountId.getD old.accountId) e).type
          = e.type)
    ∧ (∀ a ∈ db.accounts, ∃ a' ∈ db'.accounts,
        a'.id = a.id ∧ a'.initialBalance = a.initialBalance
        ∧ a'.currentBalance = a.currentBalance
            + (if a.id = old.accountId then -signedAmount old.type old.amount else 0)
            + (if a.id = r.accountId.getD old.accountId
                then signedAmount old.type (r.amount.getD old.amount) else 0)) := by
  obtain ⟨huser, hus, hcats, hnext, hval, hexp, haccs⟩ :=
    updateExpense_ok_effect db u expId r old db' hfind h
  refine ⟨updRevert_eq_signed _ _ htype, updReapply_eq_signed _ _ htype, hexp,
    fun e => rfl, ?_⟩
  intro a ha
  refine ⟨_, by rw [haccs]; exact List.mem_map_of_mem _ ha, ?_, ?_, ?_⟩
  · rw [bump1_id, bump1_id]
  · rw [bump1_initialBalance, bump1_initialBalance]
  · rw [bump1_currentBalance, bump1_id, bump1_currentBalance,
      updRevert_eq_signed _ _ htype, updReapply_eq_signed _ _ htype]

/-- Witness for C2: updating the amount of the concrete EXPENSE row
succeeds and the revert identity holds there. -/
theorem C2_witness :
    updateExpense dbGood 1 2 reqUpd = Except.ok dbGoodUpd
    ∧ updRevert expGood.type expGood.amount
        = -signedAmount expGood.type expGood.amount := by
  have h := C2_update_algorithm dbGood 1 2 reqUpd expGood dbGoodUpd rfl (Or.inr rfl) rfl
  exact ⟨rfl, h.1⟩

/-- Counterexample to C2 as stated: after a real transfer the TRANSFER_OUT
leg (amount 10, source balance 40) is updated with the same amount 10.  The
claim prescribes the net delta `revert + reapply = 10 - 10 = 0`, leaving
the balance at 40; the code computes `revertVal = -10`, `newVal = -10` and
drops the balance to 20. -/
theorem C2_cex :
    updateExpense dbXfer 1 3 updSame = Except.ok dbXferUpd
    ∧ dbXferUpd.accounts.map (fun a => a.currentBalance) = [20, 10]
    ∧ (40 : Int) + (-(signedAmount "TRANSFER_OUT" 10) + signedAmount "TRANSFER_OUT" 10)
        = 40
    ∧ (20 : Int) ≠ 40 :=
  ⟨rfl, rfl, by decide, by decide⟩

/-- C3 (amended): the no-range reconstruction sums the signed amounts of
the account's transactions starting from zero — it does not add the
account's initial balance — and therefore, in every well-typed reachable
quiescent state, it equals the cached balance minus the initial balance
(so it equals the cached balance only for accounts with zero initial
balance; the claim as stated is refuted by the counterexample). -/
theorem C3_reconstruction (db : Db) (h : ReachableGood db) :
    ∀ a ∈ db.accounts,
      reconstructBalance db a.id = a.currentBalance - a.initialBalance
      ∧ reconstructBalance db a.id = sumSigned db.expenses a.id := by
  intro a ha
  have hinv := (reachable_wf_balInv db h).2 a ha
  refine ⟨?_, reconstructBalance_eq_sumSigned db a.id⟩
  rw [reconstructBalance_eq_sumSigned]
  omega

/-- Witness for C3 at the concrete reachable state. -/
theorem C3_witness :
    reconstructBalance dbGood accGood.id
      = accGood.currentBalance - accGood.initialBalance :=
  (C3_reconstruction dbGood reachable_dbGood accGood (by decide)).1

/-- Counterexample to C3 as stated: a freshly created account with initial
balance 100 has cached balance 100, but the reconstruction route returns 0
because it never adds the initial balance. -/
theorem C3_cex :
    dbPre.accounts = [accPre]
    ∧ accPre.currentBalance = 100
    ∧ accPre.initialBalance = 100
    ∧ reconstructBalance dbPre accPre.id = 0
    ∧ (0 : Int) ≠ 100 :=
  ⟨rfl, rfl, rfl, rfl, by decide⟩

/-- C4: a transfer between two distinct accounts of the same user with a
positive amount succeeds as one atomic unit, decreases the source's cached
balance by the amount, increases the destination's by the amount, and
appends exactly two transactions: a TRANSFER_OUT of that amount on the
source and a TRANSFER_IN of that amount on the destination, both owned by
the acting user. -/
theorem C4_transfer (db : Db) (u A B : Nat) (amt date : Int) (desc : Option String)
    (src dst : Account)
    (hsrc : findAccount db A u = some src)
    (hdst : findAccount db B u = some dst)
    (hAB : A ≠ B) (hpos : 0 < amt) :
    ∃ db', transfer db u A B amt date desc = .ok db'
      ∧ (∀ a ∈ db.accounts, ∃ a' ∈ db'.accounts,
          a'.id = a.id ∧ a'.initialBalance = a.initialBalance
          ∧ a'.currentBalance = a.currentBalance
              + (if a.id = A then -amt else 0) + (if a.id = B then amt else 0))
      ∧ (∃ outE inE, db'.expenses = db.expenses ++ [outE, inE]
          ∧ outE.type = "TRANSFER_OUT" ∧ outE.amount = amt ∧ outE.accountId = A
          ∧ outE.userId = u
          ∧ inE.type = "TRANSFER_IN" ∧ inE.amount = amt ∧ inE.accountId = B
          ∧ inE.userId = u) := by
  have h2 : ¬ (amt ≤ 0) := not_le.mpr hpos
  cases hcat : db.categories.find? (fun c => c.name == "Transferência" && c.userId == u) with
  | some c =>
    refine ⟨{ db with
        expenses := db.expenses ++
          [{ id := db.nextId, description := desc.getD ("Transferência para " ++ dst.name)
             amount := amt, type := "TRANSFER_OUT", transactionDate := date
             userId := u, categoryId := c.id, accountId := A },
           { id := db.nextId + 1, description := desc.getD ("Transferência de " ++ src.name)
             amount := amt, type := "TRANSFER_IN", transactionDate := date
             userId := u, categoryId := c.id, accountId := B }]
        accounts := bumpAccount (bumpAccount db.accounts A (-amt)) B amt
        nextId := db.nextId + 2 }, ?_, ?_, ?_⟩
    · unfold transfer
      rw [if_neg (show ¬((A == B) = true) by simpa using hAB), if_neg h2, hsrc, hdst]
      simp only [hcat]
    · intro a ha
      refine ⟨_, List.mem_map_of_mem _ (List.mem_map_of_mem _ ha), ?_, ?_, ?_⟩
      · rw [bump1_id, bump1_id]
      · rw [bump1_initialBalance, bump1_initialBalance]
      · rw [bump1_currentBalance, bump1_id, bump1_currentBalance]
    · exact ⟨_, _, rfl, rfl, rfl, rfl, rfl, rfl, rfl, rfl, rfl⟩
  | none =>
    refine ⟨{ db with
        categories := db.categories ++ [{ id := db.nextId, userId := u, name := "Transferência" }]
        expenses := db.expenses ++
          [{ id := db.nextId + 1, description := desc.getD ("Transferência para " ++ dst.name)
             amount := amt, type := "TRANSFER_OUT", transactionDate := date
             userId := u, categoryId := db.nextId, accountId := A },
           { id := db.nextId + 1 + 1, description := desc.getD ("Transferência de " ++ src.name)
             amount := amt, type := "TRANSFER_IN", transactionDate := date
             userId := u, categoryId := db.nextId, accountId := B }]
        accounts := bumpAccount (bumpAccount db.accounts A (-amt)) B amt
        nextId := db.nextId + 1 + 2 }, ?_, ?_, ?_⟩
    · unfold transfer
      rw [if_neg (show ¬((A == B) = true) by simpa using hAB), if_neg h2, hsrc, hdst]
      simp only [hcat]
    · intro a ha
      refine ⟨_, List.mem_map_of_mem _ (List.mem_map_of_mem _ ha), ?_, ?_, ?_⟩
      · rw [bump1_id, bump1_id]
      · rw [bump1_initialBalance, bump1_initialBalance]
      · rw [bump1_currentBalance, bump1_id, bump1_currentBalance]
    · exact ⟨_, _, rfl, rfl, rfl, rfl, rfl, rfl, rfl, rfl, rfl⟩

/-- Witness for C4 at a concrete store with two accounts. -/
theorem C4_witness :
    findAccount dbTwo 0 1 = some accTwoA
    ∧ findAccount dbTwo 1 1 = some accTwoB
    ∧ (0 : Nat) ≠ 1 ∧ (0 : Int) < 10
    ∧ (transfer dbTwo 1 0 1 10 0 none).toOption.isSome = true := by
  refine ⟨rfl, rfl, by decide, by decide, ?_⟩
  obtain ⟨db', hok, -, -⟩ :=
    C4_transfer dbTwo 1 0 1 10 0 none accTwoA accTwoB rfl rfl (by decide) (by decide)
  rw [hok]
  rfl

theorem findExpense_append_fresh (db : Db) (hwf : Wf db) (e : Expense)
    (he : e.id = db.nextId) (db1 : Db) (hexp : db1.expenses = db.expenses ++ [e]) :
    findExpense db1 db.nextId = some e := by
  unfold findExpense
  rw [hexp, find?_append_of_none]
  · rw [List.find?_cons_of_pos _ (by simp [he])]
  · apply List.find?_eq_none.mpr
    intro x hx
    have := hwf.expLt x hx
    simp only [beq_iff_eq]
    omega

/-- C5 (amended): deleting a transaction of type INCOME or EXPENSE applies
`revert = -signedAmount(type, amount)` to its account and removes the row
in one atomic unit (the code computes the revert by a `type === EXPENSE`
test, which equals `-signedAmount` only on these two types; for
TRANSFER_OUT it applies `-amount` instead of `+amount`, see the
counterexample); consequently creating a transaction within the documented
INCOME/EXPENSE enum and deleting it restores every account balance
exactly. -/
theorem C5_deletion :
    (∀ db u expId e, findExpense db expId = some e → e.userId = u →
        (e.type = "INCOME" ∨ e.type = "EXPENSE") →
        ∃ db', deleteExpense db u expId = .ok db'
          ∧ delRevert e.type e.amount = -signedAmount e.type e.amount
          ∧ db'.expenses = db.expenses.filter (fun x => x.id != expId)
          ∧ (∀ a ∈ db.accounts, ∃ a' ∈ db'.accounts, a'.id = a.id
              ∧ a'.currentBalance = a.currentBalance
                  + (if a.id = e.accountId then -signedAmount e.type e.amount else 0)))
    ∧ (∀ db u r db1 db2, Wf db → goodType r.type = true →
        createExpense db u r = .ok db1 →
        deleteExpense db1 u db.nextId = .ok db2 →
        ∀ a ∈ db.accounts, ∃ a' ∈ db2.accounts,
          a'.id = a.id ∧ a'.currentBalance = a.currentBalance) := by
  constructor
  · intro db u expId e hfind howner htype
    refine ⟨{ db with
        accounts := bumpAccount db.accounts e.accountId (delRevert e.type e.amount)
        expenses := db.expenses.filter (fun x => x.id != expId) }, ?_,
      delRevert_eq_signed _ _ htype, rfl, ?_⟩
    · simp [deleteExpense, hfind, howner]
    · intro a ha
      refine ⟨_, List.mem_map_of_mem _ ha, ?_, ?_⟩
      · rw [bump1_id]
      · rw [bump1_currentBalance, delRevert_eq_signed _ _ htype]
  · intro db u r db1 db2 hwf hgt hc hd a ha
    obtain ⟨-, -, -, -, hn1, he1, ha1⟩ := createExpense_ok_effect db u r db1 hc
    have hfind1 := findExpense_append_fresh db hwf _ rfl db1 he1
    obtain ⟨hu2, -, -, -, he2, ha2⟩ := deleteExpense_ok_effect db1 u db.nextId _ db2 hfind1 hd
    refine ⟨_, by rw [ha2, ha1]; exact List.mem_map_of_mem _ (List.mem_map_of_mem _ ha), ?_, ?_⟩
    · rw [bump1_id, bump1_id]
    · rw [bump1_currentBalance, bump1_id, bump1_currentBalance]
      show a.currentBalance + (if a.id = r.accountId then createDelta r.type r.amount else 0)
          + (if a.id = r.accountId then delRevert (storedType r.type) r.amount else 0)
        = a.currentBalance
      have hneg : delRevert (storedType r.type) r.amount = -(createDelta r.type r.amount) := by
        rw [delRevert_eq_signed _ _ (storedType_good r.type hgt),
          createDelta_eq_signed r.type r.amount hgt]
      rw [hneg, neg_ite_zero]
      ring

/-- Witness for C5: deleting the concrete EXPENSE row succeeds. -/
theorem C5_witness :
    findExpense dbGood 2 = some expGood
    ∧ expGood.userId = 1
    ∧ expGood.type = "EXPENSE"
    ∧ (deleteExpense dbGood 1 2).toOption.isSome = true := by
  refine ⟨rfl, rfl, rfl, ?_⟩
  obtain ⟨db', hok, -, -, -⟩ := C5_deletion.1 dbGood 1 2 expGood rfl rfl (Or.inr rfl)
  rw [hok]
  rfl

/-- Counterexample to C5 as stated: deleting the TRANSFER_OUT leg created
by a real transfer (amount 10, source balance 40) applies -10 instead of
the prescribed `-signedAmount(TRANSFER_OUT, 10) = +10`: the balance drops
to 30 where the claim prescribes 50. -/
theorem C5_cex :
    deleteExpense dbXfer 1 3 = Except.ok dbXferDel
    ∧ dbXferDel.accounts.map (fun a => a.currentBalance) = [30, 10]
    ∧ (40 : Int) + (-(signedAmount "TRANSFER_OUT" 10)) = 50
    ∧ (30 : Int) ≠ 50 :=
  ⟨rfl, rfl, by decide, by decide⟩

/-- C6: every entry of the period-balance response satisfies
`closing = cachedBalance - netAfter(end)` and
`opening = closing - netWithin(start, end)`, where the nets are signed sums
(via `signedAmount`) of the transactions strictly after the adjusted end
date respectively within the inclusive range, and consequently
`closing - opening = periodNet`. -/
theorem C6_opening_closing (db : Db) (u : Nat) (ids : List Nat) (s eAdj : Int) :
    ∀ res ∈ accountBalances db u ids s eAdj,
      ∃ a ∈ db.accounts, a.id = res.accountId
        ∧ res.closingBalance
            = a.currentBalance - sumSigned (futureTxns db u ids eAdj) a.id
        ∧ res.openingBalance
            = res.closingBalance - sumSigned (periodTxns db u ids s eAdj) a.id
        ∧ res.periodNet = sumSigned (periodTxns db u ids s eAdj) a.id
        ∧ res.closingBalance - res.openingBalance = res.periodNet := by
  intro res hres
  unfold accountBalances at hres
  obtain ⟨a, ha, rfl⟩ := List.mem_map.mp hres
  refine ⟨a, List.mem_of_mem_filter ha, rfl, ?_, ?_, ?_, ?_⟩
  · show a.currentBalance - getNetChange (futureTxns db u ids eAdj) a.id
      = a.currentBalance - sumSigned (futureTxns db u ids eAdj) a.id
    rw [getNetChange_eq_sumSigned (futureTxns db u ids eAdj) a.id]
  · show a.currentBalance - getNetChange (futureTxns db u ids eAdj) a.id
        - getNetChange (periodTxns db u ids s eAdj) a.id
      = a.currentBalance - getNetChange (futureTxns db u ids eAdj) a.id
        - sumSigned (periodTxns db u ids s eAdj) a.id
    rw [getNetChange_eq_sumSigned (periodTxns db u ids s eAdj) a.id]
  · exact getNetChange_eq_sumSigned (periodTxns db u ids s eAdj) a.id
  · show a.currentBalance - getNetChange (futureTxns db u ids eAdj) a.id
        - (a.currentBalance - getNetChange (futureTxns db u ids eAdj) a.id
           - getNetChange (periodTxns db u ids s eAdj) a.id)
      = getNetChange (periodTxns db u ids s eAdj) a.id
    ring

/-- Witness for C6 on the concrete store: the single-account request
reports opening 100, closing 95, periodNet -5. -/
theorem C6_witness :
    resGood ∈ accountBalances dbGood 1 [0] 0 10
    ∧ resGood.closingBalance - resGood.openingBalance = resGood.periodNet := by
  obtain ⟨a, -, -, -, -, -, hco⟩ :=
    C6_opening_closing dbGood 1 [0] 0 10 resGood (by decide)
  exact ⟨by decide, hco⟩

/-- C7: transfer and creation requests are validated before any write: a
same-account transfer, a non-positive amount, an unowned transfer account,
an unowned account or category on creation are each rejected with the
corresponding 400-status error, and a rejected request leaves the whole
store unchanged. -/
theorem C7_validation :
    (∀ db u A amt date desc,
        transfer db u A A amt date desc = .error .sameAccountTransfer)
    ∧ (∀ db u A B amt date desc, A ≠ B → amt ≤ 0 →
        transfer db u A B amt date desc = .error .nonPositiveAmount)
    ∧ (∀ db u A B amt date desc, A ≠ B → 0 < amt →
        (findAccount db A u = none ∨ findAccount db B u = none) →
        transfer db u A B amt date desc = .error .invalidTransferAccount)
    ∧ (∀ db u r, findAccount db r.accountId u = none →
        createExpense db u r = .error .invalidAccount)
    ∧ (∀ db u r acc, findAccount db r.accountId u = some acc →
        findCategory db r.categoryId u = none →
        createExpense db u r = .error .invalidCategory)
    ∧ (∀ db u A B amt date desc err,
        transfer db u A B amt date desc = .error err →
        applyOp db (Op.xfer u A B amt date desc) = db)
    ∧ (∀ db u r err, createExpense db u r = .error err →
        applyOp db (Op.create u r) = db)
    ∧ ApiErr.status .sameAccountTransfer = 400
    ∧ ApiErr.status .nonPositiveAmount = 400
    ∧ ApiErr.status .invalidTransferAccount = 400
    ∧ ApiErr.status .invalidAccount = 400
    ∧ ApiErr.status .invalidCategory = 400 := by
  refine ⟨?_, ?_, ?_, ?_, ?_, ?_, ?_, rfl, rfl, rfl, rfl, rfl⟩
  · intro db u A amt date desc
    simp [transfer]
  · intro db u A B amt date desc hAB hle
    simp [transfer, hle, show (A == B) = false by simpa using hAB]
  · intro db u A B amt date desc hAB hpos h
    have h1 : (A == B) = false := by simpa using hAB
    have h2 : ¬ (amt ≤ 0) := not_le.mpr hpos
    rcases h with h | h
    · cases hB : findAccount db B u <;> simp [transfer, h1, h2, h, hB]
    · cases hA : findAccount db A u <;> simp [transfer, h1, h2, h, hA]
  · intro db u r h
    simp [createExpense, h]
  · intro db u r acc h1 hc
    simp [createExpense, h1, hc]
  · intro db u A B amt date desc err h
    simp [applyOp, h]
  · intro db u r err h
    simp [applyOp, h]

/-- Witness for C7 at concrete invalid requests. -/
theorem C7_witness :
    transfer dbTwo 1 0 0 5 0 none = Except.error ApiErr.sameAccountTransfer
    ∧ transfer dbTwo 1 0 1 (-3) 0 none = Except.error ApiErr.nonPositiveAmount
    ∧ transfer dbTwo 1 0 7 5 0 none = Except.error ApiErr.invalidTransferAccount
    ∧ applyOp dbTwo (Op.xfer 1 0 0 5 0 none) = dbTwo := by
  refine ⟨C7_validation.1 dbTwo 1 0 5 0 none,
    C7_validation.2.1 dbTwo 1 0 1 (-3) 0 none (by decide) (by decide),
    C7_validation.2.2.1 dbTwo 1 0 7 5 0 none (by decide) (by decide) (Or.inr rfl),
    C7_validation.2.2.2.2.2.1 dbTwo 1 0 0 5 0 none ApiErr.sameAccountTransfer
      (C7_validation.1 dbTwo 1 0 5 0 none)⟩

/-- C8: updating or deleting a missing transaction fails with NotFound
(404); an existing transaction not owned by the caller fails with
AccessDenied (403, a distinct error); in both cases the store is
unchanged. -/
theorem C8_notfound_accessdenied :
    (∀ db u i r, findExpense db i = none → updateExpense db u i r = .error .notFound)
    ∧ (∀ db u i, findExpense db i = none → deleteExpense db u i = .error .notFound)
    ∧ (∀ db u i r e, findExpense db i = some e → e.userId ≠ u →
        updateExpense db u i r = .error .accessDenied)
    ∧ (∀ db u i e, findExpense db i = some e → e.userId ≠ u →
        deleteExpense db u i = .error .accessDenied)
    ∧ ApiErr.notFound ≠ ApiErr.accessDenied
    ∧ ApiErr.status .notFound = 404
    ∧ ApiErr.status .accessDenied = 403
    ∧ (∀ db u i r err, updateExpense db u i r = .error err →
        applyOp db (Op.update u i r) = db)
    ∧ (∀ db u i err, deleteExpense db u i = .error err →
        applyOp db (Op.remove u i) = db) := by
  refine ⟨?_, ?_, ?_, ?_, by decide, rfl, rfl, ?_, ?_⟩
  · intro db u i r h
    simp [updateExpense, h]
  · intro db u i h
    simp [deleteExpense, h]
  · intro db u i r e h hne
    have hb : (e.userId != u) = true := by simpa using hne
    simp [updateExpense, h, hb]
  · intro db u i e h hne
    have hb : (e.userId != u) = true := by simpa using hne
    simp [deleteExpense, h, hb]
  · intro db u i r err h
    simp [applyOp, h]
  · intro db u i err h
    simp [applyOp, h]

/-- Witness for C8 at concrete requests against the store with one expense
owned by user 1. -/
theorem C8_witness :
    updateExpense dbGood 1 99 reqUpd = Except.error ApiErr.notFound
    ∧ deleteExpense dbGood 2 2 = Except.error ApiErr.accessDenied
    ∧ applyOp dbGood (Op.remove 2 2) = dbGood := by
  refine ⟨C8_notfound_accessdenied.1 dbGood 1 99 reqUpd rfl,
    C8_notfound_accessdenied.2.2.2.1 dbGood 2 2 expGood rfl (by decide),
    C8_notfound_accessdenied.2.2.2.2.2.2.2.2 dbGood 2 2 ApiErr.accessDenied
      (C8_notfound_accessdenied.2.2.2.1 dbGood 2 2 expGood rfl (by decide))⟩

/-- C9 (amended): login answers 400 on an unknown email and on a wrong
password, **403** (not 400 as claimed) on an unverified email — checked
before the password — and 200 with the token, name, id and email on
success. -/
theorem C9_login (db : Db) (email pw : String) :
    (db.users.find? (fun u => u.email == email) = none →
        login db email pw = .error .invalidCredentials)
    ∧ (∀ u, db.users.find? (fun u2 => u2.email == email) = some u →
        u.isVerified = false →
        login db email pw = .error .emailNotVerified)
    ∧ (∀ u, db.users.find? (fun u2 => u2.email == email) = some u →
        u.isVerified = true → bcryptCompare pw u.password = false →
        login db email pw = .error .invalidCredentials)
    ∧ (∀ u, db.users.find? (fun u2 => u2.email == email) = some u →
        u.isVerified = true → bcryptCompare pw u.password = true →
        login db email pw = .ok { id := u.id, name := u.name, email := u.email
                                  token := jwtSign u.id u.email })
    ∧ LoginErr.status .invalidCredentials = 400
    ∧ LoginErr.status .emailNotVerified = 403 := by
  refine ⟨?_, ?_, ?_, ?_, rfl, rfl⟩
  · intro h
    simp [login, h]
  · intro u h hv
    simp [login, h, hv]
  · intro u h hv hb
    simp [login, h, hv, hb]
  · intro u h hv hb
    simp [login, h, hv, hb]

/-- Witness for C9: the concrete unverified user is rejected. -/
theorem C9_witness :
    dbUsers.users.find? (fun u2 => u2.email == "ana@mail") = some userU
    ∧ userU.isVerified = false
    ∧ login dbUsers "ana@mail" "pw" = Except.error LoginErr.emailNotVerified := by
  refine ⟨rfl, rfl, ?_⟩
  exact (C9_login dbUsers "ana@mail" "pw").2.1 userU rfl rfl

/-- Counterexample to C9 as stated: an unverified user with the correct
password receives status 403, not 400. -/
theorem C9_cex :
    login dbUsers "ana@mail" "pw" = Except.error LoginErr.emailNotVerified
    ∧ bcryptCompare "pw" userU.password = true
    ∧ LoginErr.status LoginErr.emailNotVerified = 403
    ∧ (403 : Nat) ≠ 400 :=
  ⟨rfl, rfl, rfl, by decide⟩

/-- C10: transaction creation computes the cached-balance delta by a
strict comparison of the raw request string with INCOME (anything else,
including lowercase `income` or `TRANSFER_IN`, decrements by the amount),
while the stored type is the uppercased input defaulting to EXPENSE; hence
for `income` and `TRANSFER_IN` the stored row's signed amount is +amount
although the cache was decremented by amount. -/
theorem C10_create_divergence (db : Db) (u : Nat) (r : CreateReq)
    (acc : Account) (cat : Category)
    (hacc : findAccount db r.accountId u = some acc)
    (hcat : findCategory db r.categoryId u = some cat) :
    ∃ db', createExpense db u r = .ok db'
      ∧ db'.expenses = db.expenses ++
          [{ id := db.nextId, description := r.description, amount := r.amount
             type := storedType r.type, transactionDate := r.date
             userId := u, categoryId := r.categoryId, accountId := r.accountId }]
      ∧ db'.accounts = bumpAccount db.accounts r.accountId (createDelta r.type r.amount)
      ∧ createDelta r.type r.amount
          = (if r.type == some "INCOME" then r.amount else -r.amount)
      ∧ storedType none = "EXPENSE"
      ∧ storedType (some "income") = "INCOME"
      ∧ signedAmount (storedType (some "income")) r.amount = r.amount
      ∧ createDelta (some "income") r.amount = -r.amount
      ∧ signedAmount (storedType (some "TRANSFER_IN")) r.amount = r.amount
      ∧ createDelta (some "TRANSFER_IN") r.amount = -r.amount := by
  refine ⟨{ db with
      expenses := db.expenses ++
        [{ id := db.nextId, description := r.description, amount := r.amount
           type := storedType r.type, transactionDate := r.date
           userId := u, categoryId := r.categoryId, accountId := r.accountId }]
      accounts := bumpAccount db.accounts r.accountId (createDelta r.type r.amount)
      nextId := db.nextId + 1 }, ?_, rfl, rfl, rfl, rfl, rfl, rfl, rfl, rfl, rfl⟩
  unfold createExpense
  rw [hacc, hcat]

/-- Witness for C10: the concrete creation request succeeds. -/
theorem C10_witness :
    findAccount dbPre 0 1 = some accPre
    ∧ findCategory dbPre 1 1 = some catPre
    ∧ (createExpense dbPre 1 reqExp).toOption.isSome = true := by
  refine ⟨rfl, rfl, ?_⟩
  obtain ⟨db', hok, -⟩ := C10_create_divergence dbPre 1 reqExp accPre catPre rfl rfl
  rw [hok]
  rfl

end Gastos
